import Mathlib

/-!
TicketTractor frontend: verification of the label / bulk-update workflow.

Shallow embedding of the decision logic of the TicketTractor frontend
(TypeScript/React).  The embedded pieces are:

* the data model (`TicketEntry`, `LabelCheckResult`, `TicketUpdateResult`,
  `BulkUpdateResponse`) from `frontend/src/types.ts`;
* the label preview composition `getNewLabel` from `LabelConflictDialog.tsx`;
* the submit orchestration (`handleSubmit` / `doSubmit`), validation,
  conflict resolution (`handleConflictResolve` / `handleConflictResolveAll`),
  and list editing handlers (`handleAddBulkTickets`, `handleAddSingleTicket`,
  `handleTicketChange`, `handleRemoveTicket`) from `TicketUpdaterPage.tsx`.

Asynchronous network calls are modelled by passing the transport outcome of
each endpoint (`Except String _`) as an explicit argument; the component
state mutated by a submit attempt is collected in `SubmitState`.
-/

namespace TicketTractor

/-- Structure `TicketEntry` from `types.ts`.  `label_action` is a string union in the
source (`'add' | 'skip'` in the shipped variant); we model it as `String`. -/
structure TicketEntry where
  id : String
  ticket_key : String
  stage : String
  flow : String
  result : String
  failing_cmd : String
  comment : String
  label_action : String
  deriving Repr, DecidableEq

/-- Structure `LabelCheckResult` from `types.ts`. -/
structure LabelCheckResult where
  ticket_key : String
  new_label : String
  existing_results_labels : List String
  has_conflict : Bool
  deriving Repr, DecidableEq

/-- Structure `TicketUpdateResult` from `types.ts`. -/
structure TicketUpdateResult where
  ticket_key : String
  success : Bool
  label_applied : Option String
  comment_added : Bool
  error : Option String
  deriving Repr, DecidableEq

/-- Structure `BulkUpdateResponse` from `types.ts`. -/
structure BulkUpdateResponse where
  results : List TicketUpdateResult
  total : Nat
  successful : Nat
  failed : Nat
  deriving Repr, DecidableEq

/-- Response shape of the check-labels endpoint. -/
structure CheckLabelsResponse where
  results : List LabelCheckResult
  deriving Repr, DecidableEq

/-- JavaScript `String.prototype.trim()`: drop leading and trailing
whitespace.  Modelled directly on the character list so that it is fully
computable by the kernel (core's `String.trim` is iterator-based). -/
def jsTrim (s : String) : String :=
  ⟨(((s.data.dropWhile Char.isWhitespace).reverse.dropWhile
      Char.isWhitespace)).reverse⟩

/-- JavaScript `String.prototype.split(sep)` on a character list:
`"" ↦ [""]`, and separators delimit (possibly empty) segments. -/
def splitChars (sep : Char) : List Char → List (List Char)
  | [] => [[]]
  | c :: rest =>
    let r := splitChars sep rest
    if c = sep then [] :: r
    else
      match r with
      | [] => [[c]]
      | g :: gs => (c :: g) :: gs

/-- JavaScript split of a string on the comma character. -/
def splitOnComma (s : String) : List String :=
  (splitChars ',' s.data).map (fun cs => ⟨cs⟩)

/-- Core of `getNewLabel` (`LabelConflictDialog.tsx`): the label composed
from a ticket's fields.
```
const base = `results_${ticket.stage}${ticket.flow}${ticket.result}`;
return !ticket.failing_cmd || !ticket.failing_cmd.trim() ? `${base}X` : base;
```
JS falsiness of a string is emptiness, so the condition is
`failing_cmd = "" ∨ jsTrim failing_cmd = ""`. -/
def composeNewLabel (stage flow result failing_cmd : String) : String :=
  let base := "results_" ++ stage ++ flow ++ result
  if failing_cmd = "" ∨ jsTrim failing_cmd = "" then base ++ "X" else base

/-- Function `getNewLabel` (`LabelConflictDialog.tsx` lines 38-43): looks the ticket
up by key in the working list and composes the preview label. -/
def getNewLabel (tickets : List TicketEntry) (ticketKey : String) : String :=
  match tickets.find? (fun t => t.ticket_key == ticketKey) with
  | none => ""
  | some t => composeNewLabel t.stage t.flow t.result t.failing_cmd

/-! ## Submit orchestration (`TicketUpdaterPage.tsx`) -/

/-- The component state a submit attempt can touch, plus two observation
flags recording whether each endpoint was actually called. -/
structure SubmitState where
  tickets : List TicketEntry
  submitting : Bool
  error : Option String
  conflictDialogOpen : Bool
  conflicts : List LabelCheckResult
  resultsDialogOpen : Bool
  updateResults : Option BulkUpdateResponse
  checkCalled : Bool
  updateCalled : Bool
  deriving Repr, DecidableEq

/-- The aggregate validation message from `handleSubmit`. -/
def validationErrorMsg : String :=
  "All tickets must have Ticket Key, Stage, Flow, and Result filled in."

/-- Validation predicate from `handleSubmit`:
`!t.ticket_key || !t.stage || !t.flow || !t.result` (JS falsiness of a
string is emptiness). -/
def isIncomplete (t : TicketEntry) : Bool :=
  t.ticket_key == "" || t.stage == "" || t.flow == "" || t.result == ""

/-- Filter `checkResponse.results.filter((r) => r.has_conflict)` from
`handleSubmit`; this is exactly the list handed to the conflict dialog. -/
def ticketsWithConflicts (results : List LabelCheckResult) :
    List LabelCheckResult :=
  results.filter (fun r => r.has_conflict)

/-- The set of keys of successful per-ticket results (`doSubmit`). -/
def successKeys (results : List TicketUpdateResult) : List String :=
  (results.filter (fun r => r.success)).map (fun r => r.ticket_key)

/-- Function `doSubmit` from `TicketUpdaterPage.tsx` lines 225-244: call the
bulk-update endpoint, record the response, prune successfully updated
tickets by `ticket_key`; on transport failure surface the message and leave
the list untouched.  The transport outcome is an explicit argument. -/
def doSubmit (tickets : List TicketEntry)
    (updResp : Except String BulkUpdateResponse) : SubmitState :=
  match updResp with
  | .ok response =>
    { tickets :=
        tickets.filter (fun t => !((successKeys response.results).contains
          t.ticket_key)),
      submitting := false, error := none,
      conflictDialogOpen := false, conflicts := [],
      resultsDialogOpen := true, updateResults := some response,
      checkCalled := false, updateCalled := true }
  | .error msg =>
    { tickets := tickets,
      submitting := false, error := some msg,
      conflictDialogOpen := false, conflicts := [],
      resultsDialogOpen := false, updateResults := none,
      checkCalled := false, updateCalled := true }

/-- Function `handleSubmit` from `TicketUpdaterPage.tsx` lines 190-223: validate,
call check-labels, divert to the conflict dialog when any result has
`has_conflict`, otherwise fall through to `doSubmit`.  Transport outcomes
of the two endpoints are explicit arguments. -/
def handleSubmit (tickets : List TicketEntry)
    (checkResp : Except String CheckLabelsResponse)
    (updResp : Except String BulkUpdateResponse) : SubmitState :=
  if (tickets.filter isIncomplete).length > 0 then
    { tickets := tickets, submitting := false,
      error := some validationErrorMsg,
      conflictDialogOpen := false, conflicts := [],
      resultsDialogOpen := false, updateResults := none,
      checkCalled := false, updateCalled := false }
  else
    match checkResp with
    | .ok checkResponse =>
      let conflicts := ticketsWithConflicts checkResponse.results
      if conflicts.length > 0 then
        { tickets := tickets, submitting := false, error := none,
          conflictDialogOpen := true, conflicts := conflicts,
          resultsDialogOpen := false, updateResults := none,
          checkCalled := true, updateCalled := false }
      else
        { doSubmit tickets updResp with checkCalled := true }
    | .error msg =>
      { tickets := tickets, submitting := false, error := some msg,
        conflictDialogOpen := false, conflicts := [],
        resultsDialogOpen := false, updateResults := none,
        checkCalled := true, updateCalled := false }

/-- Handler `handleConflictResolve` (lines 246-252): set `label_action` on every
working-list entry whose `ticket_key` equals the given key. -/
def handleConflictResolve (ticketKey : String) (action : String)
    (tickets : List TicketEntry) : List TicketEntry :=
  tickets.map (fun t =>
    if t.ticket_key == ticketKey then { t with label_action := action } else t)

/-- Handler `handleConflictResolveAll` (lines 254-261): set `label_action` on every
working-list entry whose `ticket_key` is among the conflicting keys. -/
def handleConflictResolveAll (conflicts : List LabelCheckResult)
    (action : String) (tickets : List TicketEntry) : List TicketEntry :=
  let conflictKeys := conflicts.map (fun c => c.ticket_key)
  tickets.map (fun t =>
    if conflictKeys.contains t.ticket_key then { t with label_action := action }
    else t)

/-- Handler `handleConflictConfirm` (lines 263-266): close the dialog and run
`doSubmit`. -/
def handleConflictConfirm (tickets : List TicketEntry)
    (updResp : Except String BulkUpdateResponse) : SubmitState :=
  { doSubmit tickets updResp with conflictDialogOpen := false }

/-- The submit button's `disabled` condition
(`disabled={submitting || tickets.length === 0}`, line 384). -/
def submitButtonDisabled (submitting : Bool) (tickets : List TicketEntry) :
    Bool :=
  submitting || tickets.length == 0

/-! ## Working-list editing (`TicketUpdaterPage.tsx`) -/

/-- The keys of `TicketEntry` (`keyof TicketEntry` in the source). -/
inductive TicketField
  | id | ticket_key | stage | flow | result | failing_cmd | comment
  | label_action
  deriving Repr, DecidableEq

/-- Spread update `{ ...t, [field]: value }`: the computed-key record update. -/
def setField (t : TicketEntry) : TicketField → String → TicketEntry
  | .id, v => { t with id := v }
  | .ticket_key, v => { t with ticket_key := v }
  | .stage, v => { t with stage := v }
  | .flow, v => { t with flow := v }
  | .result, v => { t with result := v }
  | .failing_cmd, v => { t with failing_cmd := v }
  | .comment, v => { t with comment := v }
  | .label_action, v => { t with label_action := v }

/-- Field projection, for stating frame conditions about `setField`. -/
def getField (t : TicketEntry) : TicketField → String
  | .id => t.id
  | .ticket_key => t.ticket_key
  | .stage => t.stage
  | .flow => t.flow
  | .result => t.result
  | .failing_cmd => t.failing_cmd
  | .comment => t.comment
  | .label_action => t.label_action

/-- Handler `handleTicketChange` (lines 177-184):
`prev.map((t) => (t.id === id ? { ...t, [field]: value } : t))`. -/
def handleTicketChange (id : String) (field : TicketField) (value : String)
    (tickets : List TicketEntry) : List TicketEntry :=
  tickets.map (fun t => if t.id == id then setField t field value else t)

/-- Handler `handleRemoveTicket` (lines 186-188). -/
def handleRemoveTicket (id : String) (tickets : List TicketEntry) :
    List TicketEntry :=
  tickets.filter (fun t => !(t.id == id))

/-- Factory `createEmptyTicket` (lines 99-109): `id: String(++nextId)` with all
editable fields empty and `label_action: 'add'`.  The module-level mutable
counter `nextId` is threaded explicitly; `String(n)` is `Nat.repr`. -/
def createEmptyTicket (nextId : Nat) : TicketEntry × Nat :=
  ({ id := Nat.repr (nextId + 1), ticket_key := "", stage := "", flow := "",
     result := "", failing_cmd := "", comment := "", label_action := "add" },
   nextId + 1)

/-- Key parsing in `handleAddBulkTickets` (lines 159-171):
`bulkInput.split(',').map((k) => k.trim()).filter((k) => k.length > 0)`. -/
def parseBulkKeys (input : String) : List String :=
  ((splitOnComma input).map jsTrim).filter (fun k => k.length > 0)

/-- Mapping `keys.map((key) => ({ ...createEmptyTicket(), ticket_key: key }))`:
one fresh entry per key, threading the id counter left to right. -/
def ticketsForKeys (nextId : Nat) : List String → List TicketEntry × Nat
  | [] => ([], nextId)
  | key :: rest =>
    let p := createEmptyTicket nextId
    let q := ticketsForKeys p.2 rest
    ({ p.1 with ticket_key := key } :: q.1, q.2)

/-- Handler `handleAddBulkTickets` (lines 159-171): guard on a blank input, parse
keys, append the new entries. -/
def handleAddBulkTickets (input : String) (tickets : List TicketEntry)
    (nextId : Nat) : List TicketEntry × Nat :=
  if jsTrim input = "" then (tickets, nextId)
  else
    let p := ticketsForKeys nextId (parseBulkKeys input)
    (tickets ++ p.1, p.2)

/-- Handler `handleAddSingleTicket` (lines 173-175). -/
def handleAddSingleTicket (tickets : List TicketEntry) (nextId : Nat) :
    List TicketEntry × Nat :=
  let p := createEmptyTicket nextId
  (tickets ++ [p.1], p.2)

/-! ## Session state machine

All the operations the page can perform on the working list, for stating
reachability invariants (C9).  `change` carries the field a `TicketRow`
callback can name; the UI never passes the client-local `id` field, which
the legality side condition records. -/

/-- One user-visible operation on the working list. -/
inductive Op
  | addSingle
  | addBulk (input : String)
  | change (id : String) (field : TicketField) (value : String)
  | remove (id : String)
  | resolve (ticketKey : String) (action : String)
  | resolveAll (conflicts : List LabelCheckResult) (action : String)
  | prune (response : BulkUpdateResponse)

/-- The call sites in `TicketRow` / `AssigneeUpdater` pass every field
except the client-local `id`. -/
def legalOp : Op → Bool
  | .change _ field _ => field != TicketField.id
  | _ => true

/-- Working list together with the module-level id counter. -/
structure Session where
  tickets : List TicketEntry
  nextId : Nat
  deriving Repr, DecidableEq

/-- Effect of one operation on the session. -/
def applyOp (s : Session) : Op → Session
  | .addSingle =>
    let p := handleAddSingleTicket s.tickets s.nextId
    ⟨p.1, p.2⟩
  | .addBulk input =>
    let p := handleAddBulkTickets input s.tickets s.nextId
    ⟨p.1, p.2⟩
  | .change id field value =>
    ⟨handleTicketChange id field value s.tickets, s.nextId⟩
  | .remove id => ⟨handleRemoveTicket id s.tickets, s.nextId⟩
  | .resolve key action => ⟨handleConflictResolve key action s.tickets, s.nextId⟩
  | .resolveAll conflicts action =>
    ⟨handleConflictResolveAll conflicts action s.tickets, s.nextId⟩
  | .prune response => ⟨(doSubmit s.tickets (.ok response)).tickets, s.nextId⟩

/-- A fresh page: empty list, counter at 0. -/
def initialSession : Session := ⟨[], 0⟩

/-- Run a sequence of operations from the fresh page. -/
def runOps (ops : List Op) : Session := ops.foldl applyOp initialSession

/-- Invariant tying the working list to the id counter: every entry's id is
the decimal numeral of some counter value in `[1, nextId]`, and the ids are
pairwise distinct. -/
def SessionInv (s : Session) : Prop :=
  (∀ t ∈ s.tickets, ∃ k, 1 ≤ k ∧ k ≤ s.nextId ∧ t.id = Nat.repr k) ∧
  (s.tickets.map (fun t => t.id)).Nodup

/-! ## Decimal-numeral helpers

Fuel-free characterisation of core's `Nat.toDigitsCore`, used to show that
`Nat.repr` (JS `String(n)`) is injective, which the distinct-id invariant
(C9) rests on. -/

/-- The decimal digit characters of `n`, most significant first. -/
def decChars (n : Nat) : List Char :=
  if h : n / 10 = 0 then [Nat.digitChar (n % 10)]
  else decChars (n / 10) ++ [Nat.digitChar (n % 10)]
termination_by n
decreasing_by
  exact Nat.div_lt_self (Nat.pos_of_ne_zero (fun h0 => h (by simp [h0])))
    (by norm_num)

/-- Numeric value of a digit character. -/
def digitVal (c : Char) : Nat := c.toNat - 48

/-- Decimal value of a digit-character list, most significant first. -/
def charsVal (l : List Char) : Nat :=
  l.foldl (fun a c => a * 10 + digitVal c) 0

end TicketTractor

namespace TicketTractor

/-- Trimming the empty string gives the empty string. -/
theorem jsTrim_empty : jsTrim "" = "" := rfl

/-- C1 -- Label composition: the preview label is `results_` followed by
stage, flow and result, with `X` appended exactly when the failing command
is empty or whitespace-only; composition is a pure function, so it is
trivially deterministic.  Includes the two concrete examples from the spec. -/
theorem composeNewLabel_spec :
    (∀ stage flow result failing_cmd : String,
      composeNewLabel stage flow result failing_cmd =
        ("results_" ++ stage ++ flow ++ result) ++
          (if jsTrim failing_cmd = "" then "X" else "")) ∧
    composeNewLabel "build" "ci" "fail" "" = "results_buildcifailX" ∧
    composeNewLabel "build" "ci" "fail" "make test" = "results_buildcifail" := by
  refine ⟨?_, by decide, by decide⟩
  intro stage flow result failing_cmd
  unfold composeNewLabel
  by_cases h : jsTrim failing_cmd = ""
  · simp [h]
  · have h0 : ¬ failing_cmd = "" := by
      intro he
      exact h (he ▸ jsTrim_empty)
    simp [h, h0]

/-- C3 -- Validation gate: a batch with a ticket missing any of
`ticket_key`, `stage`, `flow`, `result` yields the single aggregate
validation message, no endpoint is called and the working list is
unchanged; a batch with no such ticket proceeds to the check-labels call. -/
theorem handleSubmit_validation_gate (tickets : List TicketEntry)
    (checkResp : Except String CheckLabelsResponse)
    (updResp : Except String BulkUpdateResponse) :
    ((∃ t ∈ tickets, isIncomplete t = true) →
      handleSubmit tickets checkResp updResp =
        { tickets := tickets, submitting := false,
          error := some validationErrorMsg, conflictDialogOpen := false,
          conflicts := [], resultsDialogOpen := false, updateResults := none,
          checkCalled := false, updateCalled := false }) ∧
    ((∀ t ∈ tickets, isIncomplete t = false) →
      (handleSubmit tickets checkResp updResp).checkCalled = true) := by
  constructor
  · rintro ⟨t, ht, hinc⟩
    have hmem : t ∈ tickets.filter isIncomplete :=
      List.mem_filter.2 ⟨ht, hinc⟩
    have hpos : 0 < (tickets.filter isIncomplete).length :=
      List.length_pos.2 (List.ne_nil_of_mem hmem)
    simp [handleSubmit, hpos]
  · intro hall
    have hnil : tickets.filter isIncomplete = [] :=
      List.filter_eq_nil_iff.2 (fun t ht => by simp [hall t ht])
    unfold handleSubmit
    rw [hnil]
    simp only [List.length_nil, gt_iff_lt, Nat.lt_irrefl, if_false]
    cases checkResp with
    | ok checkResponse =>
      by_cases hc : (ticketsWithConflicts checkResponse.results).length > 0 <;>
        simp [hc]
    | error msg => rfl

/-- C3 witness: a one-ticket batch missing `stage` is rejected without any
network call; a complete one proceeds to check-labels. -/
theorem handleSubmit_validation_gate_witness :
    (handleSubmit
        [{ id := "1", ticket_key := "PROJ-1", stage := "", flow := "ci",
           result := "fail", failing_cmd := "", comment := "",
           label_action := "add" }]
        (Except.error "down") (Except.error "down") =
      { tickets :=
          [{ id := "1", ticket_key := "PROJ-1", stage := "", flow := "ci",
             result := "fail", failing_cmd := "", comment := "",
             label_action := "add" }],
        submitting := false, error := some validationErrorMsg,
        conflictDialogOpen := false, conflicts := [],
        resultsDialogOpen := false, updateResults := none,
        checkCalled := false, updateCalled := false }) ∧
    (handleSubmit
        [{ id := "1", ticket_key := "PROJ-1", stage := "build", flow := "ci",
           result := "fail", failing_cmd := "", comment := "",
           label_action := "add" }]
        (Except.error "down") (Except.error "down")).checkCalled = true := by
  constructor
  · exact (handleSubmit_validation_gate _ _ _).1
      ⟨{ id := "1", ticket_key := "PROJ-1", stage := "", flow := "ci",
         result := "fail", failing_cmd := "", comment := "",
         label_action := "add" }, by simp, by decide⟩
  · exact (handleSubmit_validation_gate _ _ _).2 (by decide)

/-- C5 -- Conflict gating: with validation passing, zero conflicting
check-labels results means the bulk-update endpoint is called directly with
no dialog; one or more conflicting results means the dialog opens with
exactly the conflicting results and the bulk-update endpoint is not called
by this submit attempt. -/
theorem handleSubmit_conflict_gate (tickets : List TicketEntry)
    (results : List LabelCheckResult)
    (updResp : Except String BulkUpdateResponse)
    (hvalid : ∀ t ∈ tickets, isIncomplete t = false) :
    (ticketsWithConflicts results = [] →
      (handleSubmit tickets (.ok ⟨results⟩) updResp).updateCalled = true ∧
      (handleSubmit tickets (.ok ⟨results⟩) updResp).conflictDialogOpen
        = false) ∧
    (ticketsWithConflicts results ≠ [] →
      (handleSubmit tickets (.ok ⟨results⟩) updResp).updateCalled = false ∧
      (handleSubmit tickets (.ok ⟨results⟩) updResp).conflictDialogOpen
        = true ∧
      (handleSubmit tickets (.ok ⟨results⟩) updResp).conflicts
        = ticketsWithConflicts results) := by
  have hnil : tickets.filter isIncomplete = [] :=
    List.filter_eq_nil_iff.2 (fun t ht => by simp [hvalid t ht])
  constructor
  · intro hzero
    unfold handleSubmit
    rw [hnil]
    simp only [List.length_nil, gt_iff_lt, Nat.lt_irrefl, if_false]
    simp only [hzero, List.length_nil, gt_iff_lt, Nat.lt_irrefl, if_false]
    cases updResp <;> simp [doSubmit]
  · intro hsome
    have hpos : 0 < (ticketsWithConflicts results).length :=
      List.length_pos.2 hsome
    unfold handleSubmit
    rw [hnil]
    simp [hpos]

/-- C5 witness: at a concrete complete one-ticket batch, a conflict-free
response goes straight to bulk update, a conflicting one opens the dialog
without calling bulk update. -/
theorem handleSubmit_conflict_gate_witness :
    ((handleSubmit
        [{ id := "1", ticket_key := "A", stage := "b", flow := "c",
           result := "d", failing_cmd := "", comment := "",
           label_action := "add" }]
        (.ok ⟨[{ ticket_key := "A", new_label := "results_bcdX",
                 existing_results_labels := [], has_conflict := false }]⟩)
        (Except.error "down")).updateCalled = true) ∧
    ((handleSubmit
        [{ id := "1", ticket_key := "A", stage := "b", flow := "c",
           result := "d", failing_cmd := "", comment := "",
           label_action := "add" }]
        (.ok ⟨[{ ticket_key := "A", new_label := "results_bcdX",
                 existing_results_labels := ["results_bcdX"],
                 has_conflict := true }]⟩)
        (Except.error "down")).updateCalled = false) := by
  constructor
  · exact ((handleSubmit_conflict_gate _ _ _ (by decide)).1 (by decide)).1
  · exact ((handleSubmit_conflict_gate _ _ _ (by decide)).2 (by decide)).1

/-- C6 -- Transport failure: a failing check-labels call surfaces its
message, leaves the working list exactly as it was, clears the busy flag
and never reaches bulk update; a failing bulk-update call surfaces its
message, leaves the list untouched and clears the busy flag. -/
theorem transport_failure_preserves_list (tickets : List TicketEntry)
    (msg : String) (updResp : Except String BulkUpdateResponse)
    (hvalid : ∀ t ∈ tickets, isIncomplete t = false) :
    ((handleSubmit tickets (.error msg) updResp).error = some msg ∧
     (handleSubmit tickets (.error msg) updResp).tickets = tickets ∧
     (handleSubmit tickets (.error msg) updResp).submitting = false ∧
     (handleSubmit tickets (.error msg) updResp).updateCalled = false) ∧
    ((doSubmit tickets (.error msg)).error = some msg ∧
     (doSubmit tickets (.error msg)).tickets = tickets ∧
     (doSubmit tickets (.error msg)).submitting = false) := by
  have hnil : tickets.filter isIncomplete = [] :=
    List.filter_eq_nil_iff.2 (fun t ht => by simp [hvalid t ht])
  refine ⟨?_, by simp [doSubmit]⟩
  unfold handleSubmit
  rw [hnil]
  simp

/-- C6 witness: concrete transport failures on a complete one-ticket batch. -/
theorem transport_failure_preserves_list_witness :
    (handleSubmit
        [{ id := "1", ticket_key := "A", stage := "b", flow := "c",
           result := "d", failing_cmd := "", comment := "",
           label_action := "add" }]
        (.error "timeout") (Except.error "down")).tickets =
      [{ id := "1", ticket_key := "A", stage := "b", flow := "c",
         result := "d", failing_cmd := "", comment := "",
         label_action := "add" }] := by
  exact (transport_failure_preserves_list _ "timeout" _ (by decide)).1.2.1

/-- C8 -- Busy flag: while the submitting flag is set the submit button is
disabled, and every completion of a submit attempt (validation failure,
transport failure, diversion to the conflict dialog, bulk update success or
failure, confirm-after-conflict) leaves the flag cleared. -/
theorem single_inflight_submission :
    (∀ tickets : List TicketEntry, submitButtonDisabled true tickets = true) ∧
    (∀ (tickets : List TicketEntry)
        (checkResp : Except String CheckLabelsResponse)
        (updResp : Except String BulkUpdateResponse),
      (handleSubmit tickets checkResp updResp).submitting = false) ∧
    (∀ (tickets : List TicketEntry)
        (updResp : Except String BulkUpdateResponse),
      (doSubmit tickets updResp).submitting = false) ∧
    (∀ (tickets : List TicketEntry)
        (updResp : Except String BulkUpdateResponse),
      (handleConflictConfirm tickets updResp).submitting = false) := by
  have hdo : ∀ (tickets : List TicketEntry)
      (updResp : Except String BulkUpdateResponse),
      (doSubmit tickets updResp).submitting = false := by
    intro tickets updResp
    cases updResp <;> rfl
  refine ⟨fun tickets => rfl, ?_, hdo, fun tickets updResp => by
    simp [handleConflictConfirm, hdo]⟩
  intro tickets checkResp updResp
  unfold handleSubmit
  by_cases hv : (tickets.filter isIncomplete).length > 0
  · simp [hv]
  · simp only [hv, if_false]
    cases checkResp with
    | ok checkResponse =>
      by_cases hc : (ticketsWithConflicts checkResponse.results).length > 0 <;>
        simp [hc, hdo]
    | error msg => rfl

/-- C10 -- Frame of `handleTicketChange`: length and order are preserved;
position-wise, the entry whose `id` matches gets exactly the named field set
to the value (all other fields preserved, stated via `getField`/`setField`
frame conditions) and every other entry is returned unchanged; if no entry
has the id, the list is unchanged. -/
theorem handleTicketChange_frame (id : String) (field : TicketField)
    (value : String) (tickets : List TicketEntry) :
    (handleTicketChange id field value tickets).length = tickets.length ∧
    (∀ i (h1 : i < tickets.length)
        (h2 : i < (handleTicketChange id field value tickets).length),
      (handleTicketChange id field value tickets).get ⟨i, h2⟩ =
        if (tickets.get ⟨i, h1⟩).id = id
        then setField (tickets.get ⟨i, h1⟩) field value
        else tickets.get ⟨i, h1⟩) ∧
    ((∀ t ∈ tickets, t.id ≠ id) →
      handleTicketChange id field value tickets = tickets) ∧
    (∀ t, getField (setField t field value) field = value) ∧
    (∀ t g, g ≠ field →
      getField (setField t field value) g = getField t g) := by
  refine ⟨List.length_map _ _, ?_, ?_, ?_, ?_⟩
  · intro i h1 h2
    simp only [handleTicketChange, List.get_eq_getElem, List.getElem_map]
    by_cases hid : tickets[i].id = id <;> simp [hid]
  · intro hnone
    unfold handleTicketChange
    rw [List.map_congr_left (fun t ht => ?_), List.map_id]
    simp [hnone t ht]
  · intro t
    cases field <;> rfl
  · intro t g hg
    cases field <;> cases g <;> simp_all [getField, setField]

/-- C10 witness: a concrete two-entry edit touches exactly the matching
entry's named field. -/
theorem handleTicketChange_frame_witness :
    (handleTicketChange "2" TicketField.stage "build"
        [{ id := "1", ticket_key := "A", stage := "", flow := "",
           result := "", failing_cmd := "", comment := "",
           label_action := "add" },
         { id := "2", ticket_key := "B", stage := "", flow := "",
           result := "", failing_cmd := "", comment := "",
           label_action := "add" }]).get ⟨1, by decide⟩ =
      { id := "2", ticket_key := "B", stage := "build", flow := "",
        result := "", failing_cmd := "", comment := "",
        label_action := "add" } ∧
    (handleTicketChange "3" TicketField.stage "build"
        [{ id := "1", ticket_key := "A", stage := "", flow := "",
           result := "", failing_cmd := "", comment := "",
           label_action := "add" }]) =
      [{ id := "1", ticket_key := "A", stage := "", flow := "",
         result := "", failing_cmd := "", comment := "",
         label_action := "add" }] := by
  constructor
  · rw [(handleTicketChange_frame "2" TicketField.stage "build" _).2.1 1
      (by decide) (by decide)]
    decide
  · exact (handleTicketChange_frame "3" TicketField.stage "build" _).2.2.1
      (by decide)

/-! ### Key-based correspondence lemmas

The dialog reports conflicts per `ticket_key` and the client matches them
back to working-list entries by key.  When the response rows correspond
position-wise to the tickets and keys are distinct, key matching picks out
exactly the corresponding positions. -/

/-- Updating the entries of `as` whose key lies among the keys of the
`p`-filtered `bs` updates exactly the positions whose counterpart in `bs`
satisfies `p`. -/
theorem keyed_update {α β : Type} (keyA : α → String) (keyB : β → String)
    (p : β → Bool) (upd : α → α) :
    ∀ (bs : List β) (as : List α),
      bs.map keyB = as.map keyA → (as.map keyA).Nodup →
      as.map (fun a =>
          if keyA a ∈ (bs.filter p).map keyB then upd a else a)
        = (as.zip bs).map (fun x => if p x.2 then upd x.1 else x.1) := by
  intro bs
  induction bs with
  | nil =>
    intro as hmap _
    cases as with
    | nil => rfl
    | cons a as => simp at hmap
  | cons b bs ih =>
    intro as hmap hnodup
    cases as with
    | nil => simp at hmap
    | cons a as =>
      simp only [List.map_cons, List.cons.injEq] at hmap
      obtain ⟨hkey, htail⟩ := hmap
      simp only [List.map_cons, List.nodup_cons] at hnodup
      obtain ⟨hnotmem, hnd⟩ := hnodup
      have htaildiff : ∀ x ∈ as, keyA x ≠ keyB b := by
        intro x hx he
        apply hnotmem
        rw [← hkey, ← he]
        exact List.mem_map_of_mem keyA hx
      have hheaddiff : keyA a ∉ (bs.filter p).map keyB := by
        intro hmem
        obtain ⟨b2, hb2, hkb2⟩ := List.mem_map.1 hmem
        apply hnotmem
        rw [← hkb2, ← htail]
        exact List.mem_map_of_mem keyB (List.mem_of_mem_filter hb2)
      simp only [List.zip_cons_cons, List.map_cons, List.cons.injEq]
      by_cases hp : p b = true
      · rw [List.filter_cons_of_pos hp, List.map_cons]
        refine ⟨?_, ?_⟩
        · rw [if_pos (List.mem_cons.2 (Or.inl hkey.symm)), if_pos hp]
        · have hmc : as.map (fun x =>
              if keyA x ∈ keyB b :: (bs.filter p).map keyB then upd x else x)
              = as.map (fun x =>
                if keyA x ∈ (bs.filter p).map keyB then upd x else x) :=
            List.map_congr_left (fun x hx => by
              by_cases hmem : keyA x ∈ (bs.filter p).map keyB
              · rw [if_pos (List.mem_cons.2 (Or.inr hmem)), if_pos hmem]
              · rw [if_neg (fun hc => (List.mem_cons.1 hc).elim
                  (htaildiff x hx) hmem), if_neg hmem])
          rw [hmc]
          exact ih as htail hnd
      · rw [List.filter_cons_of_neg hp]
        refine ⟨?_, ih as htail hnd⟩
        rw [if_neg hheaddiff, if_neg hp]

/-- Keeping the entries of `as` whose key is not among the keys of the
`p`-filtered `bs` keeps exactly the positions whose counterpart in `bs`
fails `p`. -/
theorem keyed_filter {α β : Type} (keyA : α → String) (keyB : β → String)
    (p : β → Bool) :
    ∀ (bs : List β) (as : List α),
      bs.map keyB = as.map keyA → (as.map keyA).Nodup →
      as.filter (fun a => !decide (keyA a ∈ (bs.filter p).map keyB))
        = (as.zip bs).filterMap
            (fun x => if p x.2 then none else some x.1) := by
  intro bs
  induction bs with
  | nil =>
    intro as hmap _
    cases as with
    | nil => rfl
    | cons a as => simp at hmap
  | cons b bs ih =>
    intro as hmap hnodup
    cases as with
    | nil => simp at hmap
    | cons a as =>
      simp only [List.map_cons, List.cons.injEq] at hmap
      obtain ⟨hkey, htail⟩ := hmap
      simp only [List.map_cons, List.nodup_cons] at hnodup
      obtain ⟨hnotmem, hnd⟩ := hnodup
      have htaildiff : ∀ x ∈ as, keyA x ≠ keyB b := by
        intro x hx he
        apply hnotmem
        rw [← hkey, ← he]
        exact List.mem_map_of_mem keyA hx
      have hheaddiff : keyA a ∉ (bs.filter p).map keyB := by
        intro hmem
        obtain ⟨b2, hb2, hkb2⟩ := List.mem_map.1 hmem
        apply hnotmem
        rw [← hkb2, ← htail]
        exact List.mem_map_of_mem keyB (List.mem_of_mem_filter hb2)
      by_cases hp : p b = true
      · rw [List.filter_cons_of_pos hp, List.map_cons, List.zip_cons_cons,
          List.filterMap_cons]
        have hstep : (a :: as).filter (fun x =>
              !decide (keyA x ∈ keyB b :: (bs.filter p).map keyB))
            = as.filter (fun x =>
              !decide (keyA x ∈ (bs.filter p).map keyB)) := by
          rw [List.filter_cons]
          rw [decide_eq_true (List.mem_cons.2 (Or.inl hkey.symm))]
          simp only [Bool.not_true, Bool.false_eq_true, if_false]
          exact List.filter_congr (fun x hx => by
            by_cases hmem : keyA x ∈ (bs.filter p).map keyB
            · rw [decide_eq_true (List.mem_cons.2 (Or.inr hmem)),
                decide_eq_true hmem]
            · rw [decide_eq_false (fun hc => (List.mem_cons.1 hc).elim
                (htaildiff x hx) hmem), decide_eq_false hmem])
        rw [hstep, ih as htail hnd]
        simp [hp]
      · rw [List.filter_cons_of_neg hp, List.zip_cons_cons,
          List.filterMap_cons]
        rw [List.filter_cons, decide_eq_false hheaddiff]
        simp [hp, ih as htail hnd]

/-- Rewriting `handleConflictResolveAll` with propositional membership. -/
theorem resolveAll_eq_mem_form (conflicts : List LabelCheckResult)
    (action : String) (tickets : List TicketEntry) :
    handleConflictResolveAll conflicts action tickets
      = tickets.map (fun t =>
          if t.ticket_key ∈ conflicts.map (fun c => c.ticket_key)
          then { t with label_action := action } else t) := by
  unfold handleConflictResolveAll
  exact List.map_congr_left (fun t ht => by
    by_cases h : t.ticket_key ∈ conflicts.map (fun c => c.ticket_key) <;>
      simp [h])

/-- The pruning step of `doSubmit` written with propositional membership. -/
theorem doSubmit_tickets_eq_mem_form (tickets : List TicketEntry)
    (response : BulkUpdateResponse) :
    (doSubmit tickets (.ok response)).tickets
      = tickets.filter (fun t =>
          !decide (t.ticket_key ∈ successKeys response.results)) := by
  show tickets.filter _ = _
  exact List.filter_congr (fun t ht => by
    by_cases h : t.ticket_key ∈ successKeys response.results <;> simp [h])

/-- Position-wise key agreement transfers to pairs of the zipped lists. -/
theorem zip_key_eq {α β : Type} (keyA : α → String) (keyB : β → String) :
    ∀ (as : List α) (bs : List β), bs.map keyB = as.map keyA →
      ∀ x ∈ as.zip bs, keyA x.1 = keyB x.2 := by
  intro as
  induction as with
  | nil =>
    intro bs _ x hx
    simp at hx
  | cons a as ih =>
    intro bs hmap x hx
    cases bs with
    | nil => simp at hx
    | cons b bs =>
      simp only [List.map_cons, List.cons.injEq] at hmap
      obtain ⟨hkey, htail⟩ := hmap
      rcases List.mem_cons.1 (by simpa [List.zip_cons_cons] using hx)
        with rfl | hx2
      · exact hkey.symm
      · exact ih bs htail x hx2

/-- Length of the kept positions equals the number of `p`-failing rows. -/
theorem zip_filterMap_length {α β : Type} (p : β → Bool) :
    ∀ (as : List α) (bs : List β), as.length = bs.length →
      ((as.zip bs).filterMap
          (fun x => if p x.2 then none else some x.1)).length
        = (bs.filter (fun r => !p r)).length := by
  intro as
  induction as with
  | nil =>
    intro bs h
    cases bs with
    | nil => rfl
    | cons b bs => simp at h
  | cons a as ih =>
    intro bs h
    cases bs with
    | nil => simp at h
    | cons b bs =>
      have hlen : as.length = bs.length := by simpa using h
      simp only [List.zip_cons_cons, List.filterMap_cons, List.filter_cons]
      cases hp : p b <;> simp [hp, ih bs hlen]

/-- C2 -- Conflict partitioning and bulk resolution: when the check-labels
rows correspond position-wise to the working list (same keys in the same
order, keys distinct), the dialog receives exactly the rows flagged
`has_conflict` (M of them), and `handleConflictResolveAll` sets
`label_action` to the chosen value on precisely the corresponding tickets,
returning every other ticket unchanged in place. -/
theorem conflict_dialog_and_resolve_all (results : List LabelCheckResult)
    (tickets : List TicketEntry) (action : String)
    (updResp : Except String BulkUpdateResponse)
    (hmap : results.map (fun r => r.ticket_key)
      = tickets.map (fun t => t.ticket_key))
    (hnodup : (tickets.map (fun t => t.ticket_key)).Nodup) :
    ((∀ t ∈ tickets, isIncomplete t = false) →
      ticketsWithConflicts results ≠ [] →
      (handleSubmit tickets (.ok ⟨results⟩) updResp).conflicts
        = results.filter (fun r => r.has_conflict) ∧
      (handleSubmit tickets (.ok ⟨results⟩) updResp).conflictDialogOpen
        = true) ∧
    handleConflictResolveAll (ticketsWithConflicts results) action tickets
      = (tickets.zip results).map (fun x =>
          if x.2.has_conflict then { x.1 with label_action := action }
          else x.1) := by
  constructor
  · intro hvalid hne
    have hnil : tickets.filter isIncomplete = [] :=
      List.filter_eq_nil_iff.2 (fun t ht => by simp [hvalid t ht])
    have hpos : 0 < (ticketsWithConflicts results).length :=
      List.length_pos.2 hne
    unfold handleSubmit
    rw [hnil]
    simp [hpos]
    rfl
  · rw [resolveAll_eq_mem_form]
    exact keyed_update (fun t => t.ticket_key) (fun r => r.ticket_key)
      (fun r => r.has_conflict)
      (fun t => { t with label_action := action })
      results tickets hmap hnodup

/-- C2 witness: two tickets, one conflicting; resolve-all sets
`label_action` on the conflicting ticket only. -/
theorem conflict_dialog_and_resolve_all_witness :
    (handleSubmit
        [{ id := "1", ticket_key := "A", stage := "b", flow := "c",
           result := "d", failing_cmd := "", comment := "",
           label_action := "add" },
         { id := "2", ticket_key := "B", stage := "b", flow := "c",
           result := "d", failing_cmd := "", comment := "",
           label_action := "add" }]
        (.ok ⟨[{ ticket_key := "A", new_label := "results_bcdX",
                 existing_results_labels := ["results_bcdX"],
                 has_conflict := true },
               { ticket_key := "B", new_label := "results_bcdX",
                 existing_results_labels := [],
                 has_conflict := false }]⟩)
        (Except.error "down")).conflicts
      = [{ ticket_key := "A", new_label := "results_bcdX",
           existing_results_labels := ["results_bcdX"],
           has_conflict := true }] ∧
    handleConflictResolveAll
        (ticketsWithConflicts
          [{ ticket_key := "A", new_label := "results_bcdX",
             existing_results_labels := ["results_bcdX"],
             has_conflict := true },
           { ticket_key := "B", new_label := "results_bcdX",
             existing_results_labels := [],
             has_conflict := false }])
        "skip"
        [{ id := "1", ticket_key := "A", stage := "b", flow := "c",
           result := "d", failing_cmd := "", comment := "",
           label_action := "add" },
         { id := "2", ticket_key := "B", stage := "b", flow := "c",
           result := "d", failing_cmd := "", comment := "",
           label_action := "add" }]
      = [{ id := "1", ticket_key := "A", stage := "b", flow := "c",
           result := "d", failing_cmd := "", comment := "",
           label_action := "skip" },
         { id := "2", ticket_key := "B", stage := "b", flow := "c",
           result := "d", failing_cmd := "", comment := "",
           label_action := "add" }] := by
  constructor
  · exact ((conflict_dialog_and_resolve_all _ _ "skip" _ (by decide)
      (by decide)).1 (by decide) (by decide)).1.trans (by decide)
  · exact (conflict_dialog_and_resolve_all _ _ "skip" (Except.error "down")
      (by decide) (by decide)).2.trans (by decide)

/-- C4 -- Post-submission pruning: when the bulk-update rows correspond
position-wise to the working list (same keys, same order, keys distinct),
`doSubmit` keeps exactly the tickets whose row failed (F of them) and
removes the S successful ones, the full response (which carries each failed
ticket's error string) is retained for the results dialog, and every
remaining ticket has a failed row with its key. -/
theorem doSubmit_pruning (tickets : List TicketEntry)
    (response : BulkUpdateResponse)
    (hmap : response.results.map (fun r => r.ticket_key)
      = tickets.map (fun t => t.ticket_key))
    (hnodup : (tickets.map (fun t => t.ticket_key)).Nodup) :
    (doSubmit tickets (.ok response)).tickets
      = (tickets.zip response.results).filterMap (fun x =>
          if x.2.success then none else some x.1) ∧
    (doSubmit tickets (.ok response)).tickets.length
      = (response.results.filter (fun r => !r.success)).length ∧
    tickets.length
      = (response.results.filter (fun r => r.success)).length
        + (doSubmit tickets (.ok response)).tickets.length ∧
    (doSubmit tickets (.ok response)).updateResults = some response ∧
    (∀ t ∈ (doSubmit tickets (.ok response)).tickets,
      ∃ r ∈ response.results, r.ticket_key = t.ticket_key ∧
        r.success = false) := by
  have hlen : tickets.length = response.results.length := by
    have h2 := congrArg List.length hmap
    simpa using h2.symm
  have hmain : (doSubmit tickets (.ok response)).tickets
      = (tickets.zip response.results).filterMap (fun x =>
          if x.2.success then none else some x.1) := by
    rw [doSubmit_tickets_eq_mem_form]
    exact keyed_filter (fun t => t.ticket_key) (fun r => r.ticket_key)
      (fun r => r.success) response.results tickets hmap hnodup
  have hcount : (doSubmit tickets (.ok response)).tickets.length
      = (response.results.filter (fun r => !r.success)).length := by
    rw [hmain]
    exact zip_filterMap_length (fun r => r.success) tickets
      response.results hlen
  refine ⟨hmain, hcount, ?_, rfl, ?_⟩
  · rw [hcount, hlen]
    exact List.length_eq_length_filter_add _
  · intro t ht
    rw [hmain] at ht
    obtain ⟨x, hx, hfx⟩ := List.mem_filterMap.1 ht
    obtain ⟨t2, r⟩ := x
    by_cases hs : r.success = true
    · rw [if_pos hs] at hfx
      exact absurd hfx (by simp)
    · rw [if_neg hs] at hfx
      have ht2 : t2 = t := by simpa using hfx
      refine ⟨r, (List.of_mem_zip hx).2, ?_, by simpa using hs⟩
      rw [← ht2]
      exact (zip_key_eq (fun t => t.ticket_key) (fun r => r.ticket_key)
        tickets response.results hmap (t2, r) hx).symm

/-- C4 witness: two tickets, one succeeds and one fails; exactly the failed
one remains and the response with its error is kept. -/
theorem doSubmit_pruning_witness :
    (doSubmit
        [{ id := "1", ticket_key := "A-1", stage := "b", flow := "c",
           result := "d", failing_cmd := "", comment := "",
           label_action := "add" },
         { id := "2", ticket_key := "A-2", stage := "b", flow := "c",
           result := "d", failing_cmd := "", comment := "",
           label_action := "add" }]
        (.ok { results :=
                [{ ticket_key := "A-1", success := true,
                   label_applied := some "results_bcdX",
                   comment_added := false, error := none },
                 { ticket_key := "A-2", success := false,
                   label_applied := none, comment_added := false,
                   error := some "permission denied" }],
               total := 2, successful := 1, failed := 1 })).tickets
      = [{ id := "2", ticket_key := "A-2", stage := "b", flow := "c",
           result := "d", failing_cmd := "", comment := "",
           label_action := "add" }] := by
  exact (doSubmit_pruning _ _ (by decide) (by decide)).1.trans (by decide)

/-- One entry per parsed key, in order, each with the key prefilled. -/
theorem ticketsForKeys_keys : ∀ (keys : List String) (n : Nat),
    (ticketsForKeys n keys).1.map (fun t => t.ticket_key) = keys := by
  intro keys
  induction keys with
  | nil => intro n; rfl
  | cons key rest ih =>
    intro n
    simp only [ticketsForKeys, List.map_cons]
    rw [ih]

/-- Entries created by bulk paste have every editable field empty and the
default `label_action`. -/
theorem ticketsForKeys_fields : ∀ (keys : List String) (n : Nat),
    ∀ t ∈ (ticketsForKeys n keys).1,
      t.stage = "" ∧ t.flow = "" ∧ t.result = "" ∧ t.failing_cmd = "" ∧
      t.comment = "" ∧ t.label_action = "add" := by
  intro keys
  induction keys with
  | nil => intro n t ht; simp [ticketsForKeys] at ht
  | cons key rest ih =>
    intro n t ht
    rcases List.mem_cons.1 ht with rfl | ht2
    · exact ⟨rfl, rfl, rfl, rfl, rfl, rfl⟩
    · exact ih (n + 1) t ht2

/-- C7 -- Bulk paste: the input is split on commas, segments trimmed, empty
segments dropped; one new entry per remaining key is appended, with
`ticket_key` set and every other editable field empty, without
deduplication (the concrete conjunct shows the same key pasted twice
yielding two distinct entries). -/
theorem add_bulk_tickets_spec (input : String) (tickets : List TicketEntry)
    (nextId : Nat) :
    (jsTrim input = "" →
      handleAddBulkTickets input tickets nextId = (tickets, nextId)) ∧
    (jsTrim input ≠ "" →
      (handleAddBulkTickets input tickets nextId).1
        = tickets ++ (ticketsForKeys nextId (parseBulkKeys input)).1) ∧
    ((ticketsForKeys nextId (parseBulkKeys input)).1.map
        (fun t => t.ticket_key) = parseBulkKeys input) ∧
    (∀ t ∈ (ticketsForKeys nextId (parseBulkKeys input)).1,
      t.stage = "" ∧ t.flow = "" ∧ t.result = "" ∧ t.failing_cmd = "" ∧
      t.comment = "" ∧ t.label_action = "add") ∧
    ((handleAddBulkTickets "A-1, A-1" [] 0).1.map (fun t => t.ticket_key)
        = ["A-1", "A-1"] ∧
     (handleAddBulkTickets "A-1, A-1" [] 0).1.map (fun t => t.id)
        = ["1", "2"]) := by
  refine ⟨fun h => by simp [handleAddBulkTickets, h],
    fun h => by simp [handleAddBulkTickets, h],
    ticketsForKeys_keys _ _, ticketsForKeys_fields _ _, by decide, by decide⟩

/-- C7 witness: concrete blank and non-blank inputs through the theorem. -/
theorem add_bulk_tickets_spec_witness :
    handleAddBulkTickets "  " [] 5 = ([], 5) ∧
    (handleAddBulkTickets "PROJ-1,PROJ-2" [] 0).1
      = (ticketsForKeys 0 (parseBulkKeys "PROJ-1,PROJ-2")).1 := by
  constructor
  · exact (add_bulk_tickets_spec "  " [] 5).1 (by decide)
  · exact ((add_bulk_tickets_spec "PROJ-1,PROJ-2" [] 0).2.1
      (by decide)).trans (by decide)

/-! ### Injectivity of `Nat.repr`

`createEmptyTicket` stamps `String(++nextId)`; distinctness of ids reduces
to injectivity of the decimal numeral, proved via the fuel-free
characterisation `decChars` and its value function `charsVal`. -/

/-- One-step unfolding of `decChars` with a plain conditional. -/
theorem decChars_def (n : Nat) : decChars n =
    if n / 10 = 0 then [Nat.digitChar (n % 10)]
    else decChars (n / 10) ++ [Nat.digitChar (n % 10)] := by
  rw [decChars]
  by_cases h : n / 10 = 0 <;> simp [h]

/-- Core's fuelled digit writer agrees with `decChars` when the fuel
suffices. -/
theorem toDigitsCore_eq_decChars : ∀ (fuel n : Nat) (ds : List Char),
    n < fuel → Nat.toDigitsCore 10 fuel n ds = decChars n ++ ds := by
  intro fuel
  induction fuel with
  | zero => intro n ds h; exact absurd h (Nat.not_lt_zero n)
  | succ fuel ih =>
    intro n ds h
    have hunf : Nat.toDigitsCore 10 (fuel + 1) n ds =
        (if n / 10 = 0 then Nat.digitChar (n % 10) :: ds
         else Nat.toDigitsCore 10 fuel (n / 10)
           (Nat.digitChar (n % 10) :: ds)) := rfl
    rw [hunf]
    by_cases h0 : n / 10 = 0
    · rw [if_pos h0, decChars_def, if_pos h0]
      rfl
    · rw [if_neg h0]
      have h1 : 0 < n := Nat.pos_of_ne_zero (fun hz => h0 (by simp [hz]))
      have h2 : n / 10 < n := Nat.div_lt_self h1 (by norm_num)
      rw [ih (n / 10) (Nat.digitChar (n % 10) :: ds) (by omega)]
      rw [decChars_def n, if_neg h0]
      simp

/-- Core's `Nat.toDigits 10` is `decChars`. -/
theorem toDigits_eq_decChars (n : Nat) : Nat.toDigits 10 n = decChars n := by
  have h : Nat.toDigits 10 n = Nat.toDigitsCore 10 (n + 1) n [] := rfl
  rw [h, toDigitsCore_eq_decChars (n + 1) n [] (Nat.lt_succ_self n),
    List.append_nil]

/-- Value `digitVal` inverts `Nat.digitChar` on decimal digits. -/
theorem digitVal_digitChar (d : Nat) (h : d < 10) :
    digitVal (Nat.digitChar d) = d := by
  interval_cases d <;> rfl

/-- Folding the digit-value accumulator over `decChars n` recovers `n`. -/
theorem foldl_decChars (n : Nat) : ∀ a : Nat,
    (decChars n).foldl (fun x c => x * 10 + digitVal c) a
      = a * 10 ^ (decChars n).length + n := by
  induction n using Nat.strong_induction_on with
  | _ n ih =>
    intro a
    rw [decChars_def]
    by_cases h0 : n / 10 = 0
    · rw [if_pos h0]
      have hn : n < 10 := by omega
      simp only [List.foldl_cons, List.foldl_nil, List.length_cons,
        List.length_nil, Nat.zero_add, pow_one,
        digitVal_digitChar (n % 10) (Nat.mod_lt n (by norm_num))]
      omega
    · rw [if_neg h0]
      have h1 : 0 < n := Nat.pos_of_ne_zero (fun hz => h0 (by simp [hz]))
      have h2 : n / 10 < n := Nat.div_lt_self h1 (by norm_num)
      rw [List.foldl_append, ih (n / 10) h2 a]
      simp only [List.foldl_cons, List.foldl_nil, List.length_append,
        List.length_cons, List.length_nil, Nat.zero_add,
        digitVal_digitChar (n % 10) (Nat.mod_lt n (by norm_num))]
      rw [pow_succ]
      have hdm : n / 10 * 10 + n % 10 = n := by omega
      have hring : (a * 10 ^ (decChars (n / 10)).length + n / 10) * 10
          + n % 10
          = a * (10 ^ (decChars (n / 10)).length * 10)
            + (n / 10 * 10 + n % 10) := by ring
      rw [hring, hdm]

/-- Value `charsVal` inverts `decChars`. -/
theorem charsVal_decChars (n : Nat) : charsVal (decChars n) = n := by
  have h := foldl_decChars n 0
  simpa [charsVal] using h

/-- The decimal numeral `Nat.repr` (JS `String(n)`) is injective. -/
theorem repr_injective : Function.Injective Nat.repr := by
  intro m n h
  have h2 : (Nat.toDigits 10 m).asString = (Nat.toDigits 10 n).asString := h
  have h3 : Nat.toDigits 10 m = Nat.toDigits 10 n := by
    injection h2
  rw [toDigits_eq_decChars, toDigits_eq_decChars] at h3
  have h4 := congrArg charsVal h3
  rwa [charsVal_decChars, charsVal_decChars] at h4

/-! ### Session invariant: distinct client-local ids -/

/-- Setting any field other than `id` preserves `id`. -/
theorem setField_id_of_ne (t : TicketEntry) (f : TicketField) (v : String)
    (hf : f ≠ TicketField.id) : (setField t f v).id = t.id := by
  cases f <;> first | rfl | exact absurd rfl hf

/-- A numeral freshly past the counter is not among the current ids. -/
theorem fresh_repr_not_mem (s : Session) (hinv : SessionInv s) (m : Nat)
    (hm : s.nextId < m) :
    Nat.repr m ∉ s.tickets.map (fun t => t.id) := by
  intro hmem
  obtain ⟨t, ht, hid⟩ := List.mem_map.1 hmem
  obtain ⟨k, h1, h2, h3⟩ := hinv.1 t ht
  rw [h3] at hid
  have := repr_injective hid
  omega

/-- An id-preserving rewrite of the working list keeps the invariant. -/
theorem inv_map_id_preserving (s : Session)
    (g : TicketEntry → TicketEntry) (hg : ∀ t, (g t).id = t.id)
    (hinv : SessionInv s) : SessionInv ⟨s.tickets.map g, s.nextId⟩ := by
  obtain ⟨hbound, hnodup⟩ := hinv
  constructor
  · intro t ht
    obtain ⟨t0, ht0, rfl⟩ := List.mem_map.1 ht
    obtain ⟨k, h1, h2, h3⟩ := hbound t0 ht0
    exact ⟨k, h1, h2, by rw [hg t0]; exact h3⟩
  · have hmm : (s.tickets.map g).map (fun t => t.id)
        = s.tickets.map (fun t => t.id) := by
      rw [List.map_map]
      exact List.map_congr_left fun t ht => hg t
    simpa [hmm] using hnodup

/-- Dropping entries from the working list keeps the invariant. -/
theorem inv_filter_preserving (s : Session) (q : TicketEntry → Bool)
    (hinv : SessionInv s) : SessionInv ⟨s.tickets.filter q, s.nextId⟩ := by
  obtain ⟨hbound, hnodup⟩ := hinv
  refine ⟨fun t ht => hbound t (List.mem_of_mem_filter ht), ?_⟩
  show ((s.tickets.filter q).map (fun t => t.id)).Nodup
  exact List.Nodup.sublist
    (List.Sublist.map (fun t : TicketEntry => t.id)
      (List.filter_sublist s.tickets)) hnodup

/-- Ids and counter of a bulk-created batch: consecutive numerals past the
starting counter. -/
theorem ticketsForKeys_ids : ∀ (keys : List String) (n : Nat),
    (ticketsForKeys n keys).2 = n + keys.length ∧
    (ticketsForKeys n keys).1.map (fun t => t.id)
      = (List.range keys.length).map (fun i => Nat.repr (n + i + 1)) := by
  intro keys
  induction keys with
  | nil => intro n; exact ⟨rfl, rfl⟩
  | cons key rest ih =>
    intro n
    obtain ⟨ih1, ih2⟩ := ih (n + 1)
    have hc2 : (createEmptyTicket n).2 = n + 1 := rfl
    constructor
    · simp only [ticketsForKeys, hc2, List.length_cons, ih1]
      omega
    · simp only [ticketsForKeys, List.map_cons, hc2, ih2, List.length_cons]
      rw [List.range_succ_eq_map, List.map_cons, List.map_map]
      refine congrArg₂ _ (congrArg Nat.repr (by omega))
        (List.map_congr_left fun i hi => congrArg Nat.repr (by omega))

/-- Every operation a legal session step performs keeps the invariant. -/
theorem applyOp_preserves_inv (s : Session) (op : Op)
    (hop : legalOp op = true) (hinv : SessionInv s) :
    SessionInv (applyOp s op) := by
  obtain ⟨hbound, hnodup⟩ := hinv
  cases op with
  | addSingle =>
    show SessionInv ⟨s.tickets ++ [(createEmptyTicket s.nextId).1],
      s.nextId + 1⟩
    constructor
    · intro t ht
      rcases List.mem_append.1 ht with h | h
      · obtain ⟨k, h1, h2, h3⟩ := hbound t h
        exact ⟨k, h1, le_trans h2 (Nat.le_succ _), h3⟩
      · have : t = (createEmptyTicket s.nextId).1 := by simpa using h
        exact ⟨s.nextId + 1, Nat.le_add_left _ _, Nat.le_refl _,
          by rw [this]; rfl⟩
    · show ((s.tickets ++ [(createEmptyTicket s.nextId).1]).map
        (fun t => t.id)).Nodup
      rw [List.map_append]
      rw [List.nodup_append]
      refine ⟨hnodup, List.nodup_singleton _, ?_⟩
      intro x hx hx2
      have : x = Nat.repr (s.nextId + 1) := by simpa using hx2
      rw [this] at hx
      exact fresh_repr_not_mem s ⟨hbound, hnodup⟩ (s.nextId + 1)
        (by omega) hx
  | addBulk input =>
    show SessionInv ⟨(handleAddBulkTickets input s.tickets s.nextId).1,
      (handleAddBulkTickets input s.tickets s.nextId).2⟩
    unfold handleAddBulkTickets
    by_cases hblank : jsTrim input = ""
    · simpa [hblank] using And.intro hbound hnodup
    · rw [if_neg hblank]
      obtain ⟨hcnt, hids⟩ :=
        ticketsForKeys_ids (parseBulkKeys input) s.nextId
      constructor
      · intro t ht
        rcases List.mem_append.1 ht with h | h
        · obtain ⟨k, h1, h2, h3⟩ := hbound t h
          refine ⟨k, h1, ?_, h3⟩
          simp only [hcnt]
          omega
        · have hidmem : t.id ∈ (ticketsForKeys s.nextId
              (parseBulkKeys input)).1.map (fun t => t.id) :=
            List.mem_map_of_mem _ h
          rw [hids] at hidmem
          obtain ⟨i, hi, hid⟩ := List.mem_map.1 hidmem
          have hilt : i < (parseBulkKeys input).length :=
            List.mem_range.1 hi
          refine ⟨s.nextId + i + 1, by omega, ?_, hid.symm⟩
          simp only [hcnt]
          omega
      · show ((s.tickets ++ (ticketsForKeys s.nextId
            (parseBulkKeys input)).1).map (fun t => t.id)).Nodup
        rw [List.map_append, List.nodup_append]
        refine ⟨hnodup, ?_, ?_⟩
        · rw [hids]
          refine List.Nodup.map ?_ (List.nodup_range _)
          intro i j hij
          have := repr_injective hij
          omega
        · intro x hx hx2
          rw [hids] at hx2
          obtain ⟨i, hi, hid⟩ := List.mem_map.1 hx2
          rw [← hid] at hx
          exact fresh_repr_not_mem s ⟨hbound, hnodup⟩ (s.nextId + i + 1)
            (by omega) hx
  | change id field value =>
    have hf : field ≠ TicketField.id := by simpa [legalOp] using hop
    exact inv_map_id_preserving s _
      (fun t => by
        by_cases h : (t.id == id) = true
        · rw [if_pos h]
          exact setField_id_of_ne t field value hf
        · rw [if_neg h])
      ⟨hbound, hnodup⟩
  | remove id => exact inv_filter_preserving s _ ⟨hbound, hnodup⟩
  | resolve key action =>
    exact inv_map_id_preserving s _
      (fun t => by
        by_cases h : (t.ticket_key == key) = true
        · rw [if_pos h]
        · rw [if_neg h])
      ⟨hbound, hnodup⟩
  | resolveAll conflicts action =>
    exact inv_map_id_preserving s _
      (fun t => by
        by_cases h : ((conflicts.map (fun c => c.ticket_key)).contains
          t.ticket_key) = true
        · rw [if_pos h]
        · rw [if_neg h])
      ⟨hbound, hnodup⟩
  | prune response => exact inv_filter_preserving s _ ⟨hbound, hnodup⟩

/-- The invariant holds along any legal run. -/
theorem runOps_inv : ∀ (ops : List Op) (s : Session),
    (∀ op ∈ ops, legalOp op = true) → SessionInv s →
    SessionInv (ops.foldl applyOp s) := by
  intro ops
  induction ops with
  | nil => intro s _ h; exact h
  | cons op ops ih =>
    intro s hall hinv
    exact ih _ (fun o ho => hall o (List.mem_cons_of_mem _ ho))
      (applyOp_preserves_inv s op (hall op (List.mem_cons_self _ _)) hinv)

/-- C9 -- Fresh ids: along any sequence of page operations (adds, bulk
pastes, edits through the `TicketRow` callbacks, removals, conflict
resolutions, post-submit pruning), every entry's id is a numeral of a
counter value between 1 and the current counter, and the ids of the
working list are pairwise distinct — regardless of duplicated
`ticket_key` values. -/
theorem reachable_ids_distinct (ops : List Op)
    (hlegal : ∀ op ∈ ops, legalOp op = true) :
    ((runOps ops).tickets.map (fun t => t.id)).Nodup ∧
    (∀ t ∈ (runOps ops).tickets, ∃ k, 1 ≤ k ∧ k ≤ (runOps ops).nextId ∧
      t.id = Nat.repr k) := by
  have h := runOps_inv ops initialSession hlegal
    ⟨fun t ht => absurd ht (by simp [initialSession]),
     by simp [initialSession]⟩
  exact ⟨h.2, h.1⟩

/-- C9 witness: pasting the same key twice and adding a blank row yields
three entries with distinct ids even though two share a `ticket_key`. -/
theorem reachable_ids_distinct_witness :
    ((runOps [Op.addBulk "A-1, A-1", Op.addSingle]).tickets.map
        (fun t => t.id)).Nodup ∧
    (runOps [Op.addBulk "A-1, A-1", Op.addSingle]).tickets.map
        (fun t => t.ticket_key) = ["A-1", "A-1", ""] := by
  refine ⟨(reachable_ids_distinct [Op.addBulk "A-1, A-1", Op.addSingle]
    (by decide)).1, by decide⟩

end TicketTractor
